import Mathlib

/-!
Verification development for the Dublin housing-energy retrofit app
(`src/deprecated/app_with_mapselector.py`).

Modelling conventions:

* Pandas `Series`/`DataFrame` columns are Lean `List`s indexed positionally
  (the app's dataframes carry a unique integral row index).
* Python floats are modelled as exact rationals `ℚ` wherever the code only
  adds, subtracts, multiplies and compares values; the special IEEE values
  produced by division by zero (the only place the code can produce them)
  are modelled explicitly by `FloatV` (finite / NaN / plus-minus infinity).
  IEEE rounding of individual operations is not modelled: every identity
  proved below is exact in IEEE arithmetic at the inputs considered
  (`x - x`, `0 / t`, `q - 0`), and every counterexample is driven by
  truncation, bin boundaries or division by zero, not by rounding.
* The pandas sampler `Series.sample(frac=, random_state=)` draws
  `round(frac * n)` rows without replacement.  It is modelled as taking the
  first `round(frac * n)` elements of a permutation of the pool determined
  by the integer seed (parameter `shuffle`), or by the ambient global
  generator state (parameter `globalShuffle`) when `random_state` is `None`.
  The Python banker's rounding of `round` is modelled exactly (`pyround`).
* NumPy's cast of a float to `int64` (`dtype="int64"`) truncates toward
  zero; it is modelled by `ratTrunc` (casts are assumed to stay inside the
  `int64` range, which theorems needing it take as a hypothesis).
-/

namespace DublinEnergyApp

/-- Value of a Python float computation: an exact finite rational or one of
the IEEE special values that the pipeline can produce when dividing by a
zero total floor area. -/
inductive FloatV where
  | finite (q : ℚ)
  | nan
  | posInf
  | negInf
deriving DecidableEq

/-- IEEE comparison `lo < v` restricted to the values `FloatV` tracks:
NaN is incomparable to everything. -/
def FloatV.lt : FloatV → FloatV → Bool
  | .finite a, .finite b => decide (a < b)
  | .finite _, .posInf => true
  | .finite _, _ => false
  | .negInf, .nan => false
  | .negInf, .negInf => false
  | .negInf, _ => true
  | .posInf, _ => false
  | .nan, _ => false

/-- IEEE comparison `v ≤ hi`: NaN is incomparable to everything. -/
def FloatV.le : FloatV → FloatV → Bool
  | .nan, _ => false
  | _, .nan => false
  | .negInf, _ => true
  | _, .posInf => true
  | .posInf, _ => false
  | .finite a, .finite b => decide (a ≤ b)
  | .finite _, .negInf => false

/-- IEEE subtraction of a `FloatV` from a finite float (the only shape of
subtraction the pipeline performs on possibly-non-finite values, in
`post_retrofit_stock["energy_value"] - energy_value_improvement`). -/
def FloatV.subQ : ℚ → FloatV → FloatV
  | q, .finite x => .finite (q - x)
  | _, .nan => .nan
  | _, .posInf => .negInf
  | _, .negInf => .posInf

/-- IEEE division of two finite floats, which is where the pipeline can
produce NaN (`0/0`) or an infinity (`x/0`, `x ≠ 0`); the divisor zero is a
positive zero (a sum of storey areas). -/
def fdivQ (num den : ℚ) : FloatV :=
  if den = 0 then
    if num = 0 then .nan else if 0 < num then .posInf else .negInf
  else .finite (num / den)

/-- Python's built-in `round`: round half to even (banker's rounding),
used by `pandas.Series.sample` to turn `frac * len` into a row count. -/
def pyround (q : ℚ) : ℤ :=
  let f := ⌊q⌋
  let r := q - (f : ℚ)
  if r < 1 / 2 then f
  else if 1 / 2 < r then f + 1
  else if f % 2 = 0 then f else f + 1

/-- NumPy's float-to-`int64` cast: truncation toward zero (assumed in
range; see the header note). -/
def ratTrunc (q : ℚ) : ℤ := if 0 ≤ q then ⌊q⌋ else -⌊-q⌋

/-- Model of `pandas.Series.sample(frac=frac, random_state=random_state)`
on a pool of row positions: draw `round(frac * len(pool))` rows without
replacement — the first that many entries of a permutation of the pool
determined by the seed (or by the ambient global generator when
`random_state` is `None`). -/
def pdSample (shuffle : ℕ → List ℕ → List ℕ) (globalShuffle : List ℕ → List ℕ)
    (random_state : Option ℕ) (frac : ℚ) (pool : List ℕ) : List ℕ :=
  let order :=
    match random_state with
    | some seed => shuffle seed pool
    | none => globalShuffle pool
  order.take (pyround (frac * (pool.length : ℚ))).toNat

/-- Embedding of `_select_buildings_to_retrofit` (source lines 368-378):
rows whose U-value is strictly over the threshold are eligible, a seeded
sample of them is drawn (the Python default seed is 42; call sites never
override it), and the returned mask is `index.isin(sample.index)`. -/
def _select_buildings_to_retrofit (shuffle : ℕ → List ℕ → List ℕ)
    (globalShuffle : List ℕ → List ℕ) (original_uvalues : List ℚ)
    (percentage_retrofitted threshold_uvalue : ℚ) (random_state : ℕ) : List Bool :=
  let idx := List.range original_uvalues.length
  let where_uvalue_is_over_threshold : ℕ → Bool :=
    fun i => decide (threshold_uvalue < original_uvalues.getD i 0)
  let to_retrofit :=
    pdSample shuffle globalShuffle (some random_state) percentage_retrofitted
      (idx.filter where_uvalue_is_over_threshold)
  idx.map (fun i => decide (i ∈ to_retrofit))

/-- Embedding of `_retrofit_fabric` (source lines 381-388): copy the
original series and assign `new_uvalue` at mask-true positions.  The Lean
function is pure, exactly as the Python (which operates on a `.copy()` and
never mutates `original_uvalues`). -/
def _retrofit_fabric (original_uvalues : List ℚ) (to_retrofit : List Bool)
    (new_uvalue : ℚ) : List ℚ :=
  List.zipWith (fun original selected => if selected then new_uvalue else original)
    original_uvalues to_retrofit

/-- Embedding of `_estimate_cost_of_fabric_retrofits` (source lines
391-396): `pd.Series([cost] * to_retrofit, dtype="int64") * areas`.
NumPy broadcasting turns `[cost] * mask` into `cost` where the mask is
true and `0.0` elsewhere; the `int64` cast then truncates toward zero, and
the result is multiplied elementwise by the areas. -/
def _estimate_cost_of_fabric_retrofits (to_retrofit : List Bool) (cost : ℚ)
    (areas : List ℚ) : List ℚ :=
  List.zipWith
    (fun selected area => (((if selected then ratTrunc cost else 0) : ℤ) : ℚ) * area)
    to_retrofit areas

/-- Interior breakpoints of the BER bins in `_get_ber_rating` (source
lines 210-248); the full edge list of the `pd.cut` call is
`[-inf, 25, 50, ..., 450, inf]`, see `berEdges`. -/
def berBreakpoints : List ℚ :=
  [25, 50, 75, 100, 125, 150, 175, 200, 225, 260, 300, 340, 380, 450]

/-- Labels of the 15 BER bins, in bin order. -/
def berLabels : List String :=
  ["A1", "A2", "A3", "B1", "B2", "B3", "C1", "C2", "C3", "D1", "D2", "E1", "E2", "F", "G"]

/-- Full edge list `[-inf, 25, 50, ..., 450, inf]` of the `pd.cut` call. -/
def berEdges : List FloatV :=
  FloatV.negInf :: berBreakpoints.map FloatV.finite ++ [FloatV.posInf]

/-- Consecutive pairs of an edge list: the half-open bins `(lo, hi]` that
`pd.cut` with `right=True` (the default) builds. -/
def binsOf : List FloatV → List (FloatV × FloatV)
  | a :: b :: rest => (a, b) :: binsOf (b :: rest)
  | _ => []

/-- Index of the first bin `(lo, hi]` containing `v`, if any — the
categorical code `pd.cut` assigns; values in no bin (NaN, and `-inf`,
which is excluded by the open left edge of the first bin) get none. -/
def findBin (v : FloatV) : List (FloatV × FloatV) → Option ℕ
  | [] => none
  | b :: rest =>
    if (FloatV.lt b.1 v && FloatV.le v b.2) = true then some 0
    else (findBin v rest).map (fun n => n + 1)

/-- Categorical code of a single energy value under the `pd.cut` binning
of `_get_ber_rating`. -/
def ratingIndex (v : FloatV) : Option ℕ := findBin v (binsOf berEdges)

/-- Embedding of `_get_ber_rating` (source lines 210-248) at a single
value: `pd.cut` with right-closed bins over `berEdges`, mapped to
`berLabels`; out-of-bins values (NaN input, `-inf`) become missing. -/
def _get_ber_rating (v : FloatV) : Option String :=
  (ratingIndex v).bind (fun i => berLabels[i]?)

/-- Column-wise model of the building-stock dataframe: the columns the
core pipeline reads (`EXPECTED_COLUMNS`), positionally aligned. -/
structure BuildingStock where
  small_area : List String
  year_of_construction : List ℤ
  energy_value : List ℚ
  roof_area : List ℚ
  roof_uvalue : List ℚ
  wall_area : List ℚ
  wall_uvalue : List ℚ
  floor_area : List ℚ
  floor_uvalue : List ℚ
  window_area : List ℚ
  window_uvalue : List ℚ
  door_area : List ℚ
  door_uvalue : List ℚ
  ground_floor_area : List ℚ
  first_floor_area : List ℚ
  second_floor_area : List ℚ
  third_floor_area : List ℚ

/-- Well-formedness of a stock: all columns have one entry per dwelling. -/
def BuildingStock.WF (s : BuildingStock) : Prop :=
  s.small_area.length = s.energy_value.length ∧
  s.year_of_construction.length = s.energy_value.length ∧
  s.roof_area.length = s.energy_value.length ∧
  s.roof_uvalue.length = s.energy_value.length ∧
  s.wall_area.length = s.energy_value.length ∧
  s.wall_uvalue.length = s.energy_value.length ∧
  s.floor_area.length = s.energy_value.length ∧
  s.floor_uvalue.length = s.energy_value.length ∧
  s.window_area.length = s.energy_value.length ∧
  s.window_uvalue.length = s.energy_value.length ∧
  s.door_area.length = s.energy_value.length ∧
  s.door_uvalue.length = s.energy_value.length ∧
  s.ground_floor_area.length = s.energy_value.length ∧
  s.first_floor_area.length = s.energy_value.length ∧
  s.second_floor_area.length = s.energy_value.length ∧
  s.third_floor_area.length = s.energy_value.length

/-- Embedding of `main`'s `total_floor_area` (source lines 77-82): the
left-associated elementwise sum of the four storey-area columns. -/
def totalFloorArea (s : BuildingStock) : List ℚ :=
  List.zipWith (· + ·)
    (List.zipWith (· + ·) (List.zipWith (· + ·) s.ground_floor_area s.first_floor_area)
      s.second_floor_area)
    s.third_floor_area

/-- To-millions scale applied to cost sums (source line 472, `1e-6`; the
binary-float representation error of that literal is irrelevant to every
statement below, which only multiplies it by an exactly-zero sum). -/
def to_millions : ℚ := 1 / 1000000

/-- Result dictionary of `retrofit_fabric_component`. -/
structure RetrofitResult where
  uvalues : List ℚ
  lower_bound_cost : ℚ
  upper_bound_cost : ℚ

/-- Embedding of `retrofit_fabric_component` (source lines 399-477) with
the widget reads replaced by parameters (the sliders and number inputs are
UI externals; `percentage_retrofitted` is the slider value already divided
by 100).  The Python default `random_state=42` of the selector is passed
explicitly. -/
def retrofit_fabric_component (shuffle : ℕ → List ℕ → List ℕ)
    (globalShuffle : List ℕ → List ℕ) (uvalues areas : List ℚ)
    (percentage_retrofitted target_uvalue_default threshold_uvalue
      lower_bound_cost upper_bound_cost : ℚ) : RetrofitResult :=
  let buildings_to_retrofit :=
    _select_buildings_to_retrofit shuffle globalShuffle uvalues
      percentage_retrofitted threshold_uvalue 42
  let new_uvalues := _retrofit_fabric uvalues buildings_to_retrofit target_uvalue_default
  let lower_costs :=
    _estimate_cost_of_fabric_retrofits buildings_to_retrofit lower_bound_cost areas
  let upper_costs :=
    _estimate_cost_of_fabric_retrofits buildings_to_retrofit upper_bound_cost areas
  ⟨new_uvalues, lower_costs.sum * to_millions, upper_costs.sum * to_millions⟩

/-- Embedding of `main`'s post-retrofit stock (source lines 87-118): run
the component retrofits with their default targets, thresholds and cost
bounds (wall 0.2/0.5/50-300, roof 0.13/0.5/5-30, window 0.2/0.5/30-150)
and substitute the three mutated U-value columns into a copy of the
pre-retrofit stock. -/
def postRetrofitStock (shuffle : ℕ → List ℕ → List ℕ)
    (globalShuffle : List ℕ → List ℕ) (s : BuildingStock)
    (wallPct roofPct windowPct : ℚ) : BuildingStock :=
  let wall_retrofits :=
    retrofit_fabric_component shuffle globalShuffle s.wall_uvalue s.wall_area
      wallPct (2 / 10) (5 / 10) 50 300
  let roof_retrofits :=
    retrofit_fabric_component shuffle globalShuffle s.roof_uvalue s.roof_area
      roofPct (13 / 100) (5 / 10) 5 30
  let window_retrofits :=
    retrofit_fabric_component shuffle globalShuffle s.window_uvalue s.window_area
      windowPct (2 / 10) (5 / 10) 30 150
  { s with
      wall_uvalue := wall_retrofits.uvalues
      roof_uvalue := roof_retrofits.uvalues
      window_uvalue := window_retrofits.uvalues }

/-- Elementwise three-list zip used to express the per-dwelling
improvement computation. -/
def zipWith3 (f : α → β → γ → δ) : List α → List β → List γ → List δ
  | a :: as, b :: bs, c :: cs => f a b c :: zipWith3 f as bs cs
  | _, _, _ => []

/-- Embedding of `main`'s `energy_value_improvement` (source lines
121-123): `(pre_heat_loss - post_heat_loss) / total_floor_area`,
elementwise, with float division semantics.  The heat-loss physics
(`calculate_fabric_heat_loss`, delegating to the external
`rc_building_model` library) is a parameter `heatLoss`. -/
def energyValueImprovement (shuffle : ℕ → List ℕ → List ℕ)
    (globalShuffle : List ℕ → List ℕ) (heatLoss : BuildingStock → List ℚ)
    (s : BuildingStock) (wallPct roofPct windowPct : ℚ) : List FloatV :=
  zipWith3 (fun pre post tfa => fdivQ (pre - post) tfa)
    (heatLoss s)
    (heatLoss (postRetrofitStock shuffle globalShuffle s wallPct roofPct windowPct))
    (totalFloorArea s)

/-- Embedding of the orchestration tail of `main` (source lines 116-126):
the post-retrofit `energy_value` series,
`pre_energy_value - energy_value_improvement` elementwise. -/
def mainPipeline (shuffle : ℕ → List ℕ → List ℕ)
    (globalShuffle : List ℕ → List ℕ) (heatLoss : BuildingStock → List ℚ)
    (s : BuildingStock) (wallPct roofPct windowPct : ℚ) : List FloatV :=
  List.zipWith (fun e improvement => FloatV.subQ e improvement)
    s.energy_value
    (energyValueImprovement shuffle globalShuffle heatLoss s wallPct roofPct windowPct)

/-- Modelled from the spec: the fabric heat-loss physics
(`fab.calculate_fabric_heat_loss` composed with
`htuse.calculate_heat_loss_per_year`) lives in the external
`rc_building_model` library, not in this repository.  Spec section 4.5
treats it as a black box producing one annual value per dwelling from the
per-component areas and U-values with thermal bridging factor 0.05; this
concrete instance (sum of area times U-value, plus the bridging term,
times a fixed annualisation constant) realises that contract and is used
to instantiate witnesses and counterexamples — the theorems themselves
quantify over the heat-loss function. -/
def modelHeatLoss (s : BuildingStock) : List ℚ :=
  (List.range s.energy_value.length).map (fun i =>
    let areaTimesU :=
      s.roof_area.getD i 0 * s.roof_uvalue.getD i 0 +
      s.wall_area.getD i 0 * s.wall_uvalue.getD i 0 +
      s.floor_area.getD i 0 * s.floor_uvalue.getD i 0 +
      s.window_area.getD i 0 * s.window_uvalue.getD i 0 +
      s.door_area.getD i 0 * s.door_uvalue.getD i 0
    let totalArea :=
      s.roof_area.getD i 0 + s.wall_area.getD i 0 + s.floor_area.getD i 0 +
      s.window_area.getD i 0 + s.door_area.getD i 0
    (areaTimesU + (5 / 100) * totalArea) * 100)

/-- Trivial deterministic permutation oracle (the identity ordering) used
to instantiate witnesses and counterexamples. -/
def idShuffle : ℕ → List ℕ → List ℕ := fun _ pool => pool

/-- Trivial ambient global generator used to instantiate witnesses and
counterexamples. -/
def idGlobal : List ℕ → List ℕ := fun pool => pool

/-- Index of the first breakpoint at or above `q` in a breakpoint list
(equivalently, the number of leading breakpoints strictly below `q`): the
bin index a finite value receives under right-closed cutting. -/
def cutIdx (q : ℚ) : List ℚ → ℕ
  | [] => 0
  | e :: rest => if q ≤ e then 0 else cutIdx q rest + 1

theorem cutIdx_le_length (q : ℚ) (es : List ℚ) : cutIdx q es ≤ es.length := by
  induction es with
  | nil => simp [cutIdx]
  | cons e rest ih =>
    by_cases h : q ≤ e
    · simp [cutIdx, h]
    · simp [cutIdx, h]
      omega

theorem cutIdx_mono {a b : ℚ} (hab : a ≤ b) (es : List ℚ) :
    cutIdx a es ≤ cutIdx b es := by
  induction es with
  | nil => exact le_refl _
  | cons e rest ih =>
    by_cases hb : b ≤ e
    · have ha : a ≤ e := le_trans hab hb
      simp [cutIdx, ha, hb]
    · by_cases ha : a ≤ e
      · simp [cutIdx, ha, hb]
      · simp [cutIdx, ha, hb]
        omega

theorem findBin_finite_eq (q : ℚ) (es : List ℚ) (lo : FloatV)
    (hlo : FloatV.lt lo (.finite q) = true) :
    findBin (.finite q) (binsOf (lo :: es.map .finite ++ [.posInf])) =
      some (cutIdx q es) := by
  induction es generalizing lo with
  | nil => simp [binsOf, findBin, hlo, FloatV.le, cutIdx]
  | cons e rest ih =>
    by_cases h : q ≤ e
    · simp [binsOf, findBin, hlo, FloatV.le, h, cutIdx]
    · have hlt : FloatV.lt (.finite e) (.finite q) = true := by
        simp [FloatV.lt]
        linarith [lt_of_not_le h]
      have hrec := ih (.finite e) hlt
      simp [binsOf, findBin, hlo, FloatV.le, h, cutIdx, hrec]
      exact hrec

theorem ratingIndex_finite (q : ℚ) :
    ratingIndex (.finite q) = some (cutIdx q berBreakpoints) := by
  have h : FloatV.lt .negInf (.finite q) = true := rfl
  simpa [ratingIndex, berEdges] using
    findBin_finite_eq q berBreakpoints .negInf h

theorem get_ber_rating_finite (q : ℚ) :
    _get_ber_rating (.finite q) = berLabels[cutIdx q berBreakpoints]? := by
  simp [_get_ber_rating, ratingIndex_finite]

theorem ber_rating_at_25 : _get_ber_rating (.finite 25) = some "A1" := by
  rw [get_ber_rating_finite]
  norm_num [cutIdx, berBreakpoints, berLabels]

theorem ber_rating_total (q : ℚ) :
    ∃ l, _get_ber_rating (.finite q) = some l ∧ l ∈ berLabels := by
  rw [get_ber_rating_finite]
  have hlt : cutIdx q berBreakpoints < berLabels.length := by
    have h := cutIdx_le_length q berBreakpoints
    simp [berBreakpoints] at h
    simp [berLabels, berBreakpoints]
    omega
  exact ⟨berLabels[cutIdx q berBreakpoints],
    by simp [List.getElem?_eq_getElem hlt], List.getElem_mem hlt⟩

/-- Claim C3, counterexample: the claim asserts that the classifier sends
the exact boundary value 25.0 to "A2"; in the code the `pd.cut` bins are
right-closed, so 25.0 lies in `(-inf, 25]` and is classified "A1". -/
theorem rating_at_25_is_not_A2 : _get_ber_rating (.finite 25) ≠ some "A2" := by
  rw [ber_rating_at_25]
  simp

/-- Claim C3 (amended): boundary exactness of the rating classifier as the
code computes it: `classify_rating(25.0) = "A1"` (right-closed bins place
the boundary value in the lower bin), `classify_rating(24.999) = "A1"`,
`classify_rating(450.0) = "F"`, and `classify_rating(450.001) = "G"`. -/
theorem rating_boundary_exactness :
    _get_ber_rating (.finite 25) = some "A1" ∧
    _get_ber_rating (.finite (24.999 : ℚ)) = some "A1" ∧
    _get_ber_rating (.finite 450) = some "F" ∧
    _get_ber_rating (.finite (450.001 : ℚ)) = some "G" := by
  refine ⟨ber_rating_at_25, ?_, ?_, ?_⟩ <;>
    · rw [get_ber_rating_finite]
      norm_num [cutIdx, berBreakpoints, berLabels]

/-- Claim C6, counterexample: the claim says every finite or infinite
input maps to exactly one of the 15 labels; but `-inf` is excluded by the
open left edge of the first bin `(-inf, 25]`, so `pd.cut` assigns it no
label (missing value). -/
theorem rating_of_neg_infinity_is_missing : _get_ber_rating .negInf = none := by
  decide

/-- Claim C6 (amended): the classifier is pure and total in the modelled
sense — every finite input gets exactly one of the 15 labels and `+inf`
gets "G" — but `-inf` gets no label; and on inputs that do receive a bin,
the bin index (the band order of the label) is monotone non-decreasing in
the energy value. -/
theorem rating_total_and_monotone :
    (∀ q : ℚ, ∃ l, _get_ber_rating (.finite q) = some l ∧ l ∈ berLabels) ∧
    _get_ber_rating .posInf = some "G" ∧
    _get_ber_rating .negInf = none ∧
    (∀ a b : ℚ, a ≤ b → ∀ i j, ratingIndex (.finite a) = some i →
      ratingIndex (.finite b) = some j → i ≤ j) := by
  refine ⟨ber_rating_total, by decide, by decide, ?_⟩
  intro a b hab i j hi hj
  rw [ratingIndex_finite] at hi hj
  simp only [Option.some.injEq] at hi hj
  rw [← hi, ← hj]
  exact cutIdx_mono hab _

/-- Claim C6, witness: the monotonicity part applied at 25 ≤ 500, whose
bin indices are 0 and 14. -/
theorem rating_total_and_monotone_witness : (25 : ℚ) ≤ 500 ∧ (0 : ℕ) ≤ 14 := by
  have h1 : ratingIndex (.finite (25 : ℚ)) = some 0 := by
    rw [ratingIndex_finite]
    norm_num [cutIdx, berBreakpoints]
  have h2 : ratingIndex (.finite (500 : ℚ)) = some 14 := by
    rw [ratingIndex_finite]
    norm_num [cutIdx, berBreakpoints]
  exact ⟨by norm_num,
    rating_total_and_monotone.2.2.2 25 500 (by norm_num) 0 14 h1 h2⟩

theorem pyround_zero : pyround 0 = 0 := by
  norm_num [pyround]

theorem pyround_natCast (n : ℕ) : pyround ((n : ℚ)) = (n : ℤ) := by
  have hfl : ⌊((n : ℚ))⌋ = (n : ℤ) := Int.floor_natCast n
  simp only [pyround, hfl]
  norm_num

theorem pdSample_frac_zero (shuffle : ℕ → List ℕ → List ℕ)
    (globalShuffle : List ℕ → List ℕ) (random_state : Option ℕ) (pool : List ℕ) :
    pdSample shuffle globalShuffle random_state 0 pool = [] := by
  simp [pdSample, pyround_zero]

theorem pdSample_frac_one (shuffle : ℕ → List ℕ → List ℕ)
    (globalShuffle : List ℕ → List ℕ) (seed : ℕ) (pool : List ℕ)
    (hperm : (shuffle seed pool).Perm pool) :
    pdSample shuffle globalShuffle (some seed) 1 pool = shuffle seed pool := by
  simp only [pdSample, one_mul, pyround_natCast, Int.toNat_natCast]
  rw [← hperm.length_eq]
  exact List.take_length _

theorem select_frac_zero (shuffle : ℕ → List ℕ → List ℕ)
    (globalShuffle : List ℕ → List ℕ) (u : List ℚ) (thr : ℚ) (rs : ℕ) :
    _select_buildings_to_retrofit shuffle globalShuffle u 0 thr rs =
      List.replicate u.length false := by
  simp [_select_buildings_to_retrofit, pdSample_frac_zero, List.map_const']

theorem getD_map_range (f : ℕ → α) (n i : ℕ) (hi : i < n) (d : α) :
    ((List.range n).map f).getD i d = f i := by
  rw [List.getD_eq_getElem ((List.range n).map f) d (by simpa using hi)]
  simp

/-- Claim C8 (confirmed): the selector is deterministic.  It hands the
sampler its fixed integer seed (42; call sites never override it), so its
output does not depend on the ambient global generator state — the only
thing that can differ between two calls with the same U-values, threshold,
fraction and seed — hence repeated calls return identical masks. -/
theorem select_deterministic (shuffle : ℕ → List ℕ → List ℕ)
    (g1 g2 : List ℕ → List ℕ) (uvalues : List ℚ)
    (percentage threshold : ℚ) (seed : ℕ) :
    _select_buildings_to_retrofit shuffle g1 uvalues percentage threshold seed =
      _select_buildings_to_retrofit shuffle g2 uvalues percentage threshold seed := rfl

theorem select_frac_one_spec (shuffle : ℕ → List ℕ → List ℕ)
    (hperm : ∀ s p, (shuffle s p).Perm p) (globalShuffle : List ℕ → List ℕ)
    (uvalues : List ℚ) (threshold : ℚ) (seed : ℕ) :
    (_select_buildings_to_retrofit shuffle globalShuffle uvalues 1 threshold seed).length
        = uvalues.length ∧
    ∀ i, i < uvalues.length →
      ((_select_buildings_to_retrofit shuffle globalShuffle uvalues 1 threshold
          seed).getD i false = true ↔
        threshold < uvalues.getD i 0) := by
  constructor
  · simp [_select_buildings_to_retrofit]
  · intro i hi
    have hsamp := pdSample_frac_one shuffle globalShuffle seed
      ((List.range uvalues.length).filter fun j => decide (threshold < uvalues.getD j 0))
      (hperm seed _)
    simp only [_select_buildings_to_retrofit]
    rw [getD_map_range _ _ _ hi, hsamp]
    have hmem : (i ∈ shuffle seed ((List.range uvalues.length).filter
        fun j => decide (threshold < uvalues.getD j 0))) ↔
        threshold < uvalues.getD i 0 := by
      rw [(hperm seed _).mem_iff]
      simp [List.mem_filter, List.mem_range, hi]
    simp only [decide_eq_true_eq]
    exact hmem

/-- Claim C4 (confirmed): with fraction 1 the selector returns a mask of
the input's length that is true exactly at the positions whose U-value is
strictly over the threshold, and false everywhere else — under the
modelling assumption that the seeded sampler permutes its pool (pandas
sampling without replacement). -/
theorem select_fraction_one_is_eligible_set (shuffle : ℕ → List ℕ → List ℕ)
    (hperm : ∀ s p, (shuffle s p).Perm p) (globalShuffle : List ℕ → List ℕ)
    (uvalues : List ℚ) (threshold : ℚ) (seed : ℕ) :
    (_select_buildings_to_retrofit shuffle globalShuffle uvalues 1 threshold seed).length
        = uvalues.length ∧
    ∀ i, i < uvalues.length →
      ((_select_buildings_to_retrofit shuffle globalShuffle uvalues 1 threshold
          seed).getD i false = true ↔
        threshold < uvalues.getD i 0) :=
  select_frac_one_spec shuffle hperm globalShuffle uvalues threshold seed

/-- Claim C4, witness: the theorem applied to the stock `[0.6, 0.4]` with
threshold 0.5 and the identity permutation oracle: position 0 is eligible
and selected, position 1 is not. -/
theorem select_fraction_one_witness :
    ((_select_buildings_to_retrofit idShuffle idGlobal [3 / 5, 2 / 5] 1 (1 / 2)
        42).getD 0 false = true ↔ (1 : ℚ) / 2 < (3 : ℚ) / 5) ∧
    ((_select_buildings_to_retrofit idShuffle idGlobal [3 / 5, 2 / 5] 1 (1 / 2)
        42).getD 1 false = true ↔ (1 : ℚ) / 2 < (2 : ℚ) / 5) := by
  have h := select_fraction_one_is_eligible_set idShuffle
    (fun s p => List.Perm.refl p) idGlobal [3 / 5, 2 / 5] (1 / 2) 42
  have h0 := (h.2 0 (by decide))
  have h1 := (h.2 1 (by decide))
  constructor
  · simpa using h0
  · simpa using h1

theorem retrofit_fabric_all_false (u : List ℚ) (v : ℚ) :
    _retrofit_fabric u (List.replicate u.length false) v = u := by
  induction u with
  | nil => rfl
  | cons a rest ih =>
    simpa [_retrofit_fabric, List.replicate_succ] using ih

theorem retrofit_fabric_getD (original : List ℚ) (mask : List Bool) (v : ℚ)
    (i : ℕ) (hi : i < original.length) (him : i < mask.length) :
    (_retrofit_fabric original mask v).getD i 0 =
      if mask.getD i false then v else original.getD i 0 := by
  induction original generalizing mask i with
  | nil => simp at hi
  | cons a rest ih =>
    cases mask with
    | nil => simp at him
    | cons m ms =>
      cases i with
      | zero => simp [_retrofit_fabric]
      | succ k =>
        simp only [_retrofit_fabric, List.zipWith_cons_cons, List.getD_cons_succ]
        exact ih ms k (by simpa using hi) (by simpa using him)

/-- Claim C7 (confirmed): the fabric mutator returns a sequence of the
original's length whose entry is the new value exactly at mask-true
positions and the original entry elsewhere.  The embedded function is pure
— like the Python, which assigns into a `.copy()` — so the original
sequence is untouched by construction. -/
theorem retrofit_fabric_spec (original : List ℚ) (mask : List Bool) (v : ℚ)
    (hlen : mask.length = original.length) :
    (_retrofit_fabric original mask v).length = original.length ∧
    ∀ i, i < original.length →
      (mask.getD i false = true → (_retrofit_fabric original mask v).getD i 0 = v) ∧
      (mask.getD i false = false →
        (_retrofit_fabric original mask v).getD i 0 = original.getD i 0) := by
  constructor
  · simp [_retrofit_fabric, hlen]
  · intro i hi
    rw [retrofit_fabric_getD original mask v i hi (hlen ▸ hi)]
    constructor
    · intro h
      rw [if_pos h]
    · intro h
      rw [if_neg (by rw [h]; simp)]

/-- Claim C7, witness: the theorem applied to `[0.6, 0.4]` with mask
`[true, false]` and new value 0.2. -/
theorem retrofit_fabric_witness :
    ([true, false].length = [(6 : ℚ) / 10, 4 / 10].length) ∧
    (_retrofit_fabric [(6 : ℚ) / 10, 4 / 10] [true, false] (2 / 10)).getD 0 0 = 2 / 10 ∧
    (_retrofit_fabric [(6 : ℚ) / 10, 4 / 10] [true, false] (2 / 10)).getD 1 0 = 4 / 10 := by
  have h := retrofit_fabric_spec [(6 : ℚ) / 10, 4 / 10] [true, false] (2 / 10) (by decide)
  refine ⟨by decide, ?_, ?_⟩
  · exact (h.2 0 (by decide)).1 (by decide)
  · have := (h.2 1 (by decide)).2 (by decide)
    simpa using this

theorem ratTrunc_intCast (z : ℤ) : ratTrunc ((z : ℚ)) = z := by
  unfold ratTrunc
  by_cases h : (0 : ℚ) ≤ (z : ℚ)
  · rw [if_pos h, Int.floor_intCast]
  · rw [if_neg h, ← Int.cast_neg, Int.floor_intCast, neg_neg]

theorem ratTrunc_eq_self_iff (q : ℚ) :
    ((ratTrunc q : ℤ) : ℚ) = q ↔ ∃ z : ℤ, q = (z : ℚ) := by
  constructor
  · intro h
    exact ⟨ratTrunc q, h.symm⟩
  · rintro ⟨z, rfl⟩
    rw [ratTrunc_intCast]

theorem estimate_getD (mask : List Bool) (cost : ℚ) (areas : List ℚ) (i : ℕ)
    (him : i < mask.length) (hia : i < areas.length) :
    (_estimate_cost_of_fabric_retrofits mask cost areas).getD i 0 =
      (((if mask.getD i false then ratTrunc cost else 0) : ℤ) : ℚ) * areas.getD i 0 := by
  induction mask generalizing areas i with
  | nil => simp at him
  | cons m ms ih =>
    cases areas with
    | nil => simp at hia
    | cons a as =>
      cases i with
      | zero => simp [_estimate_cost_of_fabric_retrofits]
      | succ k =>
        simp only [_estimate_cost_of_fabric_retrofits, List.zipWith_cons_cons,
          List.getD_cons_succ]
        exact ih as k (by simpa using him) (by simpa using hia)

theorem estimate_sum (mask : List Bool) (cost : ℚ) (areas : List ℚ) :
    (_estimate_cost_of_fabric_retrofits mask cost areas).sum =
      (ratTrunc cost : ℚ) *
        (List.zipWith (fun m a => if m then a else 0) mask areas).sum := by
  induction mask generalizing areas with
  | nil => simp [_estimate_cost_of_fabric_retrofits]
  | cons m ms ih =>
    cases areas with
    | nil => simp [_estimate_cost_of_fabric_retrofits]
    | cons a as =>
      have hrec := ih as
      cases m
      · simp only [_estimate_cost_of_fabric_retrofits, List.zipWith_cons_cons,
          List.sum_cons] at hrec ⊢
        rw [hrec]
        simp
      · simp only [_estimate_cost_of_fabric_retrofits, List.zipWith_cons_cons,
          List.sum_cons] at hrec ⊢
        rw [hrec]
        simp
        ring

theorem maskedSum_all_false (mask : List Bool) (areas : List ℚ)
    (h : ∀ b ∈ mask, b = false) :
    (List.zipWith (fun m a => if m then a else 0) mask areas).sum = 0 := by
  induction mask generalizing areas with
  | nil => simp
  | cons m ms ih =>
    cases areas with
    | nil => simp
    | cons a as =>
      have hm : m = false := h m (List.mem_cons_self m ms)
      have hms : ∀ b ∈ ms, b = false := fun b hb => h b (List.mem_cons_of_mem m hb)
      simp [hm, ih as hms]

theorem estimate_length (mask : List Bool) (cost : ℚ) (areas : List ℚ) :
    (_estimate_cost_of_fabric_retrofits mask cost areas).length =
      min mask.length areas.length := by
  simp [_estimate_cost_of_fabric_retrofits]

/-- Claim C2, counterexample: with the non-negative but non-integer unit
cost 1.5 and area 1 at a selected position, the estimator returns 1
(the int64 cast truncates 1.5 to 1), not `unit_cost * area = 1.5` as the
claim states. -/
theorem estimate_not_unit_cost_times_area :
    (0 : ℚ) ≤ 3 / 2 ∧
    _estimate_cost_of_fabric_retrofits [true] (3 / 2) [1] = [1] ∧
    (1 : ℚ) ≠ 3 / 2 * 1 := by
  refine ⟨by norm_num, ?_, by norm_num⟩
  have h : ratTrunc (3 / 2) = 1 := by
    norm_num [ratTrunc]
  simp [_estimate_cost_of_fabric_retrofits, h]

/-- Claim C2 (amended): for every mask, non-negative unit cost and area
sequence of the same length, the estimator returns per position
`trunc(unit_cost) * area` where the mask is true (the `int64` cast
truncates the unit cost toward zero, so the stated `unit_cost * area` only
holds for integer unit costs) and 0 otherwise; its sum equals
`trunc(unit_cost)` times the sum of the areas at mask-true positions; and
the millions aggregation (sum scaled by 1e-6) of an all-false mask is 0. -/
theorem estimate_cost_spec (mask : List Bool) (cost : ℚ) (areas : List ℚ)
    (_hcost : 0 ≤ cost) (_hareas : ∀ a ∈ areas, 0 ≤ a)
    (hlen : mask.length = areas.length) :
    (∀ i, i < mask.length →
      (_estimate_cost_of_fabric_retrofits mask cost areas).getD i 0 =
        if mask.getD i false then (ratTrunc cost : ℚ) * areas.getD i 0 else 0) ∧
    (_estimate_cost_of_fabric_retrofits mask cost areas).sum =
      (ratTrunc cost : ℚ) *
        (List.zipWith (fun m a => if m then a else 0) mask areas).sum ∧
    ((∀ b ∈ mask, b = false) →
      (_estimate_cost_of_fabric_retrofits mask cost areas).sum * to_millions = 0) := by
  refine ⟨?_, estimate_sum mask cost areas, ?_⟩
  · intro i hi
    rw [estimate_getD mask cost areas i hi (hlen ▸ hi)]
    by_cases h : mask.getD i false
    · rw [if_pos h, if_pos h]
    · rw [if_neg h, if_neg h]
      simp [Bool.eq_false_iff.mpr h]
  · intro hall
    rw [estimate_sum mask cost areas, maskedSum_all_false mask areas hall]
    ring

/-- Claim C2, witness: the theorem applied to mask `[true, false]`, unit
cost 50 and areas `[70, 70]` — the selected dwelling costs 3500, the other
0. -/
theorem estimate_cost_witness :
    (0 : ℚ) ≤ 50 ∧
    (_estimate_cost_of_fabric_retrofits [true, false] 50 [70, 70]).getD 0 0 =
      (ratTrunc 50 : ℚ) * 70 ∧
    (_estimate_cost_of_fabric_retrofits [true, false] 50 [70, 70]).getD 1 0 = 0 := by
  have h := estimate_cost_spec [true, false] 50 [70, 70] (by norm_num)
    (by intro a ha; fin_cases ha <;> norm_num) (by decide)
  refine ⟨by norm_num, ?_, ?_⟩
  · have h0 := h.1 0 (by decide)
    simpa using h0
  · have h1 := h.1 1 (by decide)
    simpa using h1

/-- Claim C9, counterexample: called with a negative unit cost the
estimator does not fail — there is no validation anywhere on that path —
it returns a cost sequence: int64(-5.5) truncates toward zero to -5, and
-5 times area 2 gives -10. -/
theorem estimate_negative_cost_returns_sequence :
    (-11 / 2 : ℚ) < 0 ∧
    _estimate_cost_of_fabric_retrofits [true] (-11 / 2) [2] = [-10] := by
  refine ⟨by norm_num, ?_⟩
  have h : ratTrunc (-11 / 2) = -5 := by
    norm_num [ratTrunc]
  simp [_estimate_cost_of_fabric_retrofits, h]
  norm_num

/-- Claim C9 (amended): the estimator performs no input validation: with a
negative unit cost (and likewise negative areas) it does not fail — it
still returns the elementwise cost sequence, per position
`trunc(unit_cost) * area` at mask-true positions and 0 elsewhere, so
negative costs propagate into the result instead of raising an error. -/
theorem estimate_no_validation (mask : List Bool) (cost : ℚ) (areas : List ℚ)
    (_hcost : cost < 0) (hlen : mask.length = areas.length) :
    (_estimate_cost_of_fabric_retrofits mask cost areas).length = mask.length ∧
    ∀ i, i < mask.length →
      (_estimate_cost_of_fabric_retrofits mask cost areas).getD i 0 =
        if mask.getD i false then (ratTrunc cost : ℚ) * areas.getD i 0 else 0 := by
  constructor
  · rw [estimate_length, hlen, Nat.min_self]
  · intro i hi
    rw [estimate_getD mask cost areas i hi (hlen ▸ hi)]
    by_cases h : mask.getD i false
    · rw [if_pos h, if_pos h]
    · rw [if_neg h, if_neg h]
      simp [Bool.eq_false_iff.mpr h]

/-- Claim C9, witness: the theorem applied to mask `[true]`, unit cost
-5.5 and areas `[2]`. -/
theorem estimate_no_validation_witness :
    ((-11 / 2 : ℚ) < 0) ∧
    (_estimate_cost_of_fabric_retrofits [true] (-11 / 2) [2]).getD 0 0 =
      (ratTrunc (-11 / 2) : ℚ) * 2 := by
  have h := estimate_no_validation [true] (-11 / 2) [2] (by norm_num) (by decide)
  refine ⟨by norm_num, ?_⟩
  have h0 := h.2 0 (by decide)
  simpa using h0

/-- Claim C10 (confirmed): the per-dwelling cost factor is coerced to a
64-bit integer before the multiplication by the areas: the estimator's
output coincides with what it returns for the truncated unit cost, the
aggregated total is the truncation times the masked area sum, and the
truncation is the identity exactly on integer unit costs — so fractional
unit costs are silently rounded toward zero everywhere. -/
theorem estimate_coerces_cost_to_int (mask : List Bool) (cost : ℚ) (areas : List ℚ) :
    _estimate_cost_of_fabric_retrofits mask cost areas =
      _estimate_cost_of_fabric_retrofits mask ((ratTrunc cost : ℚ)) areas ∧
    (_estimate_cost_of_fabric_retrofits mask cost areas).sum =
      (ratTrunc cost : ℚ) *
        (List.zipWith (fun m a => if m then a else 0) mask areas).sum ∧
    (((ratTrunc cost : ℤ) : ℚ) = cost ↔ ∃ z : ℤ, cost = (z : ℚ)) := by
  refine ⟨?_, estimate_sum mask cost areas, ratTrunc_eq_self_iff cost⟩
  simp only [_estimate_cost_of_fabric_retrofits, ratTrunc_intCast]

theorem length_zipWith3 (f : α → β → γ → δ) (as : List α) (bs : List β)
    (cs : List γ) :
    (zipWith3 f as bs cs).length = min as.length (min bs.length cs.length) := by
  induction as generalizing bs cs with
  | nil => simp [zipWith3]
  | cons a as ih =>
    cases bs with
    | nil => simp [zipWith3]
    | cons b bs =>
      cases cs with
      | nil => simp [zipWith3]
      | cons c cs =>
        simp only [zipWith3, List.length_cons, ih]
        omega

theorem getD_zipWith3 (f : α → β → γ → δ) (as : List α) (bs : List β)
    (cs : List γ) (i : ℕ) (ha : i < as.length) (hb : i < bs.length)
    (hc : i < cs.length) (d : δ) (da : α) (db : β) (dc : γ) :
    (zipWith3 f as bs cs).getD i d = f (as.getD i da) (bs.getD i db) (cs.getD i dc) := by
  induction as generalizing bs cs i with
  | nil => simp at ha
  | cons a as ih =>
    cases bs with
    | nil => simp at hb
    | cons b bs =>
      cases cs with
      | nil => simp at hc
      | cons c cs =>
        cases i with
        | zero => simp [zipWith3]
        | succ k =>
          simp only [zipWith3, List.getD_cons_succ]
          exact ih bs cs k (by simpa using ha) (by simpa using hb) (by simpa using hc)

theorem getD_zipWith (f : α → β → γ) (as : List α) (bs : List β) (i : ℕ)
    (ha : i < as.length) (hb : i < bs.length) (d : γ) (da : α) (db : β) :
    (List.zipWith f as bs).getD i d = f (as.getD i da) (bs.getD i db) := by
  induction as generalizing bs i with
  | nil => simp at ha
  | cons a as ih =>
    cases bs with
    | nil => simp at hb
    | cons b bs =>
      cases i with
      | zero => simp
      | succ k =>
        simp only [List.zipWith_cons_cons, List.getD_cons_succ]
        exact ih bs k (by simpa using ha) (by simpa using hb)

theorem totalFloorArea_length (s : BuildingStock) (h : s.WF) :
    (totalFloorArea s).length = s.energy_value.length := by
  obtain ⟨-, -, -, -, -, -, -, -, -, -, -, -, hg, hf, hs2, ht⟩ := h
  simp [totalFloorArea, List.length_zipWith, hg, hf, hs2, ht]

theorem totalFloorArea_getD (s : BuildingStock) (h : s.WF) (i : ℕ)
    (hi : i < s.energy_value.length) :
    (totalFloorArea s).getD i 0 =
      s.ground_floor_area.getD i 0 + s.first_floor_area.getD i 0 +
        s.second_floor_area.getD i 0 + s.third_floor_area.getD i 0 := by
  obtain ⟨-, -, -, -, -, -, -, -, -, -, -, -, hg, hf, hs2, ht⟩ := h
  rw [totalFloorArea]
  rw [getD_zipWith _ _ _ i (by simp [List.length_zipWith, hg, hf, hs2]; omega)
    (by omega) 0 0 0]
  rw [getD_zipWith _ _ _ i (by simp [List.length_zipWith, hg, hf]; omega)
    (by omega) 0 0 0]
  rw [getD_zipWith _ _ _ i (by omega) (by omega) 0 0 0]

theorem postRetrofitStock_energy_value (shuffle : ℕ → List ℕ → List ℕ)
    (globalShuffle : List ℕ → List ℕ) (s : BuildingStock)
    (wallPct roofPct windowPct : ℚ) :
    (postRetrofitStock shuffle globalShuffle s wallPct roofPct windowPct).energy_value
      = s.energy_value := rfl

theorem postRetrofitStock_zero (shuffle : ℕ → List ℕ → List ℕ)
    (globalShuffle : List ℕ → List ℕ) (s : BuildingStock) :
    postRetrofitStock shuffle globalShuffle s 0 0 0 = s := by
  simp only [postRetrofitStock, retrofit_fabric_component, select_frac_zero,
    retrofit_fabric_all_false]

/-- Claim C1 (amended): if all three components run with
`percentage_retrofitted = 0` and every dwelling has a nonzero total floor
area, the post-retrofit energy-value series equals the pre-retrofit one
exactly, for any heat-loss physics returning one value per dwelling.  The
nonzero-floor-area hypothesis is forced by the counterexample: with a zero
total floor area the improvement is the float division 0/0 = NaN and that
dwelling's post energy value is NaN, not its pre value. -/
theorem pipeline_noop_at_zero_percentages (shuffle : ℕ → List ℕ → List ℕ)
    (globalShuffle : List ℕ → List ℕ) (heatLoss : BuildingStock → List ℚ)
    (s : BuildingStock) (hwf : s.WF)
    (hhl : ∀ u, (heatLoss u).length = u.energy_value.length)
    (htfa : ∀ i, i < s.energy_value.length → (totalFloorArea s).getD i 0 ≠ 0) :
    mainPipeline shuffle globalShuffle heatLoss s 0 0 0 =
      s.energy_value.map FloatV.finite := by
  have htl : (totalFloorArea s).length = s.energy_value.length :=
    totalFloorArea_length s hwf
  rw [mainPipeline, energyValueImprovement, postRetrofitStock_zero]
  apply List.ext_getElem
  · simp [List.length_zipWith, length_zipWith3, hhl, htl]
  · intro i h1 h2
    have hi : i < s.energy_value.length := by
      simpa using h2
    have himp : i < (zipWith3 (fun pre post tfa => fdivQ (pre - post) tfa)
        (heatLoss s) (heatLoss s) (totalFloorArea s)).length := by
      rw [length_zipWith3, hhl, htl]
      omega
    rw [List.getElem_zipWith, List.getElem_map]
    have hgd : (zipWith3 (fun pre post tfa => fdivQ (pre - post) tfa)
        (heatLoss s) (heatLoss s) (totalFloorArea s))[i] =
        fdivQ ((heatLoss s).getD i 0 - (heatLoss s).getD i 0)
          ((totalFloorArea s).getD i 0) := by
      rw [← List.getD_eq_getElem _ FloatV.nan himp]
      exact getD_zipWith3 _ _ _ _ i (by rw [hhl]; omega) (by rw [hhl]; omega)
        (by omega) FloatV.nan 0 0 0
    rw [hgd, sub_self]
    have hz : fdivQ 0 ((totalFloorArea s).getD i 0) = .finite 0 := by
      rw [fdivQ, if_neg (htfa i hi)]
      norm_num
    rw [hz]
    simp [FloatV.subQ, List.getD_eq_getElem _ _ hi]

/-- Concrete one-dwelling stock with nonzero storey areas, used to witness
the amended no-op invariant. -/
def stockUnit : BuildingStock :=
  ⟨["267112001"], [2005], [100], [50], [1], [80], [1], [60], [1], [16], [1],
    [2], [1], [10], [10], [0], [0]⟩

/-- Claim C1, witness: the amended no-op invariant applied to `stockUnit`
(total floor area 20) with the identity sampling oracles and the modelled
heat-loss physics. -/
theorem pipeline_noop_witness :
    mainPipeline idShuffle idGlobal modelHeatLoss stockUnit 0 0 0 =
      stockUnit.energy_value.map FloatV.finite := by
  apply pipeline_noop_at_zero_percentages idShuffle idGlobal modelHeatLoss stockUnit
  · exact ⟨rfl, rfl, rfl, rfl, rfl, rfl, rfl, rfl, rfl, rfl, rfl, rfl, rfl,
      rfl, rfl, rfl⟩
  · intro u
    simp [modelHeatLoss]
  · intro i hi
    have hlen : stockUnit.energy_value.length = 1 := rfl
    rw [hlen] at hi
    have h0 : i = 0 := by omega
    subst h0
    rw [totalFloorArea]
    norm_num [stockUnit, List.zipWith]

/-- Concrete one-dwelling stock whose four storey areas are all zero
(areas are allowed to be zero by the stock invariant), violating the no-op
claim. -/
def stockZero : BuildingStock :=
  ⟨["267112002"], [2005], [100], [1], [1], [1], [1], [1], [1], [1], [1],
    [1], [1], [0], [0], [0], [0]⟩

/-- Claim C1, counterexample: on a well-formed stock whose single dwelling
has total floor area 0, running all three components with percentage 0
yields post energy value NaN (the improvement is the float division
0/0), not the pre-retrofit value 100 — the no-op guarantee fails. -/
theorem pipeline_noop_fails_at_zero_floor_area :
    stockZero.WF ∧
    mainPipeline idShuffle idGlobal modelHeatLoss stockZero 0 0 0 = [.nan] ∧
    stockZero.energy_value.map FloatV.finite = [.finite 100] ∧
    FloatV.nan ≠ FloatV.finite 100 := by
  refine ⟨⟨rfl, rfl, rfl, rfl, rfl, rfl, rfl, rfl, rfl, rfl, rfl, rfl, rfl,
      rfl, rfl, rfl⟩, ?_, by simp [stockZero], by simp⟩
  rw [mainPipeline, energyValueImprovement, postRetrofitStock_zero]
  have hm : modelHeatLoss stockZero = [525] := by
    norm_num [modelHeatLoss, stockZero, List.range_succ]
  have ht : totalFloorArea stockZero = [0] := by
    norm_num [totalFloorArea, stockZero, List.zipWith]
  rw [hm, ht]
  show [FloatV.subQ 100 (fdivQ (525 - 525) 0)] = [FloatV.nan]
  norm_num [fdivQ, FloatV.subQ]

theorem stockZero_wf : stockZero.WF :=
  ⟨rfl, rfl, rfl, rfl, rfl, rfl, rfl, rfl, rfl, rfl, rfl, rfl, rfl, rfl, rfl, rfl⟩

theorem pipeline_div_by_zero_cases (shuffle : ℕ → List ℕ → List ℕ)
    (globalShuffle : List ℕ → List ℕ) (heatLoss : BuildingStock → List ℚ)
    (s : BuildingStock) (wallPct roofPct windowPct : ℚ) (hwf : s.WF)
    (hhl : ∀ u, (heatLoss u).length = u.energy_value.length)
    (i : ℕ) (hi : i < s.energy_value.length) (d t : ℚ)
    (hd : (heatLoss s).getD i 0 -
      (heatLoss (postRetrofitStock shuffle globalShuffle s wallPct roofPct
        windowPct)).getD i 0 = d)
    (ht : (totalFloorArea s).getD i 0 = t) :
    (t = 0 ∧ d = 0 →
      (energyValueImprovement shuffle globalShuffle heatLoss s wallPct roofPct
        windowPct).getD i .nan = .nan ∧
      (mainPipeline shuffle globalShuffle heatLoss s wallPct roofPct
        windowPct).getD i .nan = .nan) ∧
    (t = 0 ∧ 0 < d →
      (energyValueImprovement shuffle globalShuffle heatLoss s wallPct roofPct
        windowPct).getD i .nan = .posInf ∧
      (mainPipeline shuffle globalShuffle heatLoss s wallPct roofPct
        windowPct).getD i .nan = .negInf) ∧
    (t = 0 ∧ d < 0 →
      (energyValueImprovement shuffle globalShuffle heatLoss s wallPct roofPct
        windowPct).getD i .nan = .negInf ∧
      (mainPipeline shuffle globalShuffle heatLoss s wallPct roofPct
        windowPct).getD i .nan = .posInf) ∧
    (t ≠ 0 →
      (energyValueImprovement shuffle globalShuffle heatLoss s wallPct roofPct
        windowPct).getD i .nan = .finite (d / t) ∧
      (mainPipeline shuffle globalShuffle heatLoss s wallPct roofPct
        windowPct).getD i .nan =
        .finite (s.energy_value.getD i 0 - d / t)) := by
  have htl : (totalFloorArea s).length = s.energy_value.length :=
    totalFloorArea_length s hwf
  have hpostlen : (heatLoss (postRetrofitStock shuffle globalShuffle s wallPct
      roofPct windowPct)).length = s.energy_value.length := by
    rw [hhl, postRetrofitStock_energy_value]
  have himp : (energyValueImprovement shuffle globalShuffle heatLoss s wallPct
      roofPct windowPct).getD i .nan = fdivQ d t := by
    rw [energyValueImprovement,
      getD_zipWith3 _ _ _ _ i (by rw [hhl]; omega) (by rw [hpostlen]; omega)
        (by rw [htl]; omega) FloatV.nan 0 0 0, hd, ht]
  have hmain : (mainPipeline shuffle globalShuffle heatLoss s wallPct roofPct
      windowPct).getD i .nan =
      FloatV.subQ (s.energy_value.getD i 0) (fdivQ d t) := by
    rw [mainPipeline,
      getD_zipWith _ _ _ i (by omega)
        (by rw [energyValueImprovement, length_zipWith3, hhl, hpostlen, htl]; omega)
        FloatV.nan 0 FloatV.nan, himp]
  refine ⟨?_, ?_, ?_, ?_⟩
  · rintro ⟨ht0, hd0⟩
    rw [himp, hmain, ht0, hd0]
    norm_num [fdivQ, FloatV.subQ]
  · rintro ⟨ht0, hdpos⟩
    rw [himp, hmain, ht0]
    rw [fdivQ, if_pos rfl, if_neg (by linarith), if_pos hdpos]
    simp [FloatV.subQ]
  · rintro ⟨ht0, hdneg⟩
    rw [himp, hmain, ht0]
    rw [fdivQ, if_pos rfl, if_neg (by linarith), if_neg (by linarith)]
    simp [FloatV.subQ]
  · intro ht0
    rw [himp, hmain, fdivQ, if_neg ht0]
    simp [FloatV.subQ]

/-- Claim C5 (amended): the pipeline has no explicit guard on the
division by `total_floor_area`; it follows float semantics.  At a dwelling
with zero total floor area the improvement is NaN exactly when that
dwelling's heat-loss delta is zero, and a plus or minus infinity when the
delta is nonzero (so it is not always reported as NaN); nothing is
reported as an error.  Dwellings with nonzero floor area are computed
normally — elementwise, so the rest of the batch completes in every
case. -/
theorem pipeline_zero_floor_area_semantics (shuffle : ℕ → List ℕ → List ℕ)
    (globalShuffle : List ℕ → List ℕ) (heatLoss : BuildingStock → List ℚ)
    (s : BuildingStock) (wallPct roofPct windowPct : ℚ) (hwf : s.WF)
    (hhl : ∀ u, (heatLoss u).length = u.energy_value.length)
    (i : ℕ) (hi : i < s.energy_value.length) (d t : ℚ)
    (hd : (heatLoss s).getD i 0 -
      (heatLoss (postRetrofitStock shuffle globalShuffle s wallPct roofPct
        windowPct)).getD i 0 = d)
    (ht : (totalFloorArea s).getD i 0 = t) :
    (t = 0 ∧ d = 0 →
      (energyValueImprovement shuffle globalShuffle heatLoss s wallPct roofPct
        windowPct).getD i .nan = .nan ∧
      (mainPipeline shuffle globalShuffle heatLoss s wallPct roofPct
        windowPct).getD i .nan = .nan) ∧
    (t = 0 ∧ 0 < d →
      (energyValueImprovement shuffle globalShuffle heatLoss s wallPct roofPct
        windowPct).getD i .nan = .posInf ∧
      (mainPipeline shuffle globalShuffle heatLoss s wallPct roofPct
        windowPct).getD i .nan = .negInf) ∧
    (t = 0 ∧ d < 0 →
      (energyValueImprovement shuffle globalShuffle heatLoss s wallPct roofPct
        windowPct).getD i .nan = .negInf ∧
      (mainPipeline shuffle globalShuffle heatLoss s wallPct roofPct
        windowPct).getD i .nan = .posInf) ∧
    (t ≠ 0 →
      (energyValueImprovement shuffle globalShuffle heatLoss s wallPct roofPct
        windowPct).getD i .nan = .finite (d / t) ∧
      (mainPipeline shuffle globalShuffle heatLoss s wallPct roofPct
        windowPct).getD i .nan =
        .finite (s.energy_value.getD i 0 - d / t)) :=
  pipeline_div_by_zero_cases shuffle globalShuffle heatLoss s wallPct roofPct
    windowPct hwf hhl i hi d t hd ht

/-- Claim C5, witness: the semantics theorem applied to `stockZero` (total
floor area 0, heat-loss delta 0 because no component is retrofitted): the
post energy value at that dwelling is NaN and no exception is modelled
anywhere — the pipeline is a total function. -/
theorem pipeline_zero_floor_area_witness :
    (totalFloorArea stockZero).getD 0 0 = 0 ∧
    (mainPipeline idShuffle idGlobal modelHeatLoss stockZero 0 0 0).getD 0
      .nan = .nan := by
  have ht : (totalFloorArea stockZero).getD 0 0 = 0 := by
    norm_num [totalFloorArea, stockZero, List.zipWith]
  have hd : (modelHeatLoss stockZero).getD 0 0 -
      (modelHeatLoss (postRetrofitStock idShuffle idGlobal stockZero 0 0
        0)).getD 0 0 = 0 := by
    rw [postRetrofitStock_zero]
    ring
  have h := pipeline_zero_floor_area_semantics idShuffle idGlobal modelHeatLoss
    stockZero 0 0 0 stockZero_wf (fun u => by simp [modelHeatLoss]) 0
    (by norm_num [stockZero]) 0 0 hd ht
  exact ⟨ht, (h.1 ⟨rfl, rfl⟩).2⟩

theorem select_single_over :
    _select_buildings_to_retrofit idShuffle idGlobal [(1 : ℚ)] 1 (5 / 10) 42 =
      [true] := by
  have h := select_frac_one_spec idShuffle
    (fun s p => List.Perm.refl p) idGlobal [(1 : ℚ)] (5 / 10) 42
  have hlen : (_select_buildings_to_retrofit idShuffle idGlobal [(1 : ℚ)] 1
      (5 / 10) 42).length = 1 := by
    simpa using h.1
  obtain ⟨b, hb⟩ := List.length_eq_one.mp hlen
  have h0 : (_select_buildings_to_retrofit idShuffle idGlobal [(1 : ℚ)] 1
      (5 / 10) 42).getD 0 false = true := by
    refine (h.2 0 (by norm_num)).mpr ?_
    norm_num
  rw [hb] at h0 ⊢
  simpa using h0

/-- Claim C5, counterexample: the claim says a zero-floor-area dwelling's
improvement is reported as undefined/NaN by an explicit guard; but when
such a dwelling is actually retrofitted (wall fraction 1, its heat-loss
delta is 80, not 0), the unguarded float division yields +inf, and its
post energy value is -inf — not NaN, and nothing is reported. -/
theorem zero_floor_area_improvement_not_nan :
    (totalFloorArea stockZero).getD 0 0 = 0 ∧
    (energyValueImprovement idShuffle idGlobal modelHeatLoss stockZero 1 0
      0).getD 0 .nan = .posInf ∧
    (mainPipeline idShuffle idGlobal modelHeatLoss stockZero 1 0 0).getD 0
      .nan = .negInf := by
  have ht : (totalFloorArea stockZero).getD 0 0 = 0 := by
    norm_num [totalFloorArea, stockZero, List.zipWith]
  have hpost : postRetrofitStock idShuffle idGlobal stockZero 1 0 0 =
      { stockZero with wall_uvalue := [2 / 10] } := by
    simp only [postRetrofitStock, retrofit_fabric_component, select_frac_zero,
      retrofit_fabric_all_false]
    have hsel : _select_buildings_to_retrofit idShuffle idGlobal
        stockZero.wall_uvalue 1 (5 / 10) 42 = [true] := select_single_over
    rw [hsel]
    rfl
  have hd : (modelHeatLoss stockZero).getD 0 0 -
      (modelHeatLoss (postRetrofitStock idShuffle idGlobal stockZero 1 0
        0)).getD 0 0 = 80 := by
    rw [hpost]
    norm_num [modelHeatLoss, stockZero, List.range_succ]
  have h := pipeline_div_by_zero_cases idShuffle idGlobal modelHeatLoss
    stockZero 1 0 0 stockZero_wf (fun u => by simp [modelHeatLoss]) 0
    (by norm_num [stockZero]) 80 0 hd ht
  have hcase := h.2.1 ⟨rfl, by norm_num⟩
  exact ⟨ht, hcase.1, hcase.2⟩

end DublinEnergyApp
